import Mathlib

/-!
Shallow embedding of the crfsuite frontend learn command
(src/frontend/learn.c) together with theorems checking the
natural-language specification against it.

Strings owned by the option structure are modelled as allocations with a
numeric identity, so that the free/release discipline of the C code can be
stated and proved.  External collaborators (the dictionary factory, the
trainer factory, its parameter store, fopen and the data reader) are
modelled as an oracle environment, since learn.c only observes their
success or failure.
-/

namespace CrfLearn

/-- Source of one data stream in the ingestion loop of main_learn
(learn.c:218): standard input is used for the argument "-", otherwise the
named file is opened. -/
inductive Src
  | stdin
  | file (name : String)
deriving DecidableEq, Repr

/-- A heap allocation produced by mystrdup: a numeric identity plus the
duplicated string contents. -/
structure Alloc where
  id : Nat
  val : String
deriving DecidableEq, Repr

/-- Allocator state: the next fresh allocation id and the ordered log of
free calls made so far (an id may repeat if the program double-frees). -/
structure Mem where
  next : Nat
  freed : List Nat
deriving DecidableEq, Repr

/-- Embeds mystrdup (learn.c:60-67): duplicate a string into a fresh
allocation.  The C callers never check for a NULL result, so allocation is
modelled as always succeeding. -/
def mystrdup (m : Mem) (s : String) : Mem × Alloc :=
  ({ m with next := m.next + 1 }, ⟨m.next, s⟩)

/-- Embeds a call to free on an owned string: append the allocation id to
the free log.  Like C free, it does not check whether the id was already
freed. -/
def memFree (m : Mem) (i : Nat) : Mem :=
  { m with freed := m.freed ++ [i] }

/-- Embeds learn_option_t (learn.c:48-58).  The three string fields and
the raw-parameter array hold owned allocations. -/
structure LearnOption where
  model : Alloc
  algorithm : Alloc
  type : Alloc
  holdout : Int
  help : Bool
  params : List Alloc
deriving DecidableEq, Repr

/-- Embeds learn_option_init (learn.c:69-77): defaults, with the model,
algorithm and type strings freshly duplicated (ids 0, 1, 2). -/
def learn_option_init : Mem × LearnOption :=
  let m0 : Mem := { next := 0, freed := [] }
  let r1 := mystrdup m0 ("crfsuite.model")
  let r2 := mystrdup r1.1 ("lbfgs")
  let r3 := mystrdup r2.1 ("dyad")
  (r3.1,
   { model := r1.2, algorithm := r2.2, type := r3.2,
     holdout := -1, help := false, params := [] })

/-- The allocation ids freed by learn_option_finish (learn.c:79-89): the
model string and every stored raw parameter, in that order.  The
algorithm and type strings are not on the list: the C function never
frees them. -/
def finishFreeList (opt : LearnOption) : List Nat :=
  opt.model.id :: opt.params.map (fun p => p.id)

/-- Embeds learn_option_finish (learn.c:79-89): free opt->model and each
opt->params[i].  (The params pointer array itself is also freed in C; it
is not a string allocation and is not tracked.) -/
def learn_option_finish (m : Mem) (opt : LearnOption) : Mem :=
  opt.params.foldl (fun acc a => memFree acc a.id) (memFree m opt.model.id)

/-- Embeds atoi as used at learn.c:98 on the digits of the -t argument:
accumulate leading decimal digits. -/
def atoiLoop : Nat → List Char → Nat
  | acc, [] => acc
  | acc, c :: cs => if c.isDigit then atoiLoop (10 * acc + (c.toNat - 48)) cs else acc

/-- Embeds atoi on an optional sign followed by decimal digits. -/
def atoi (s : String) : Int :=
  match s.toList with
  | '-' :: cs => - (atoiLoop 0 cs : Int)
  | '+' :: cs => (atoiLoop 0 cs : Int)
  | cs => (atoiLoop 0 cs : Int)

/-- Embeds the -m, --model handler (learn.c:93-95): free the old model
string, then store a duplicate of the argument. -/
def onModel (m : Mem) (opt : LearnOption) (arg : String) : Mem × LearnOption :=
  let m1 := memFree m opt.model.id
  let r := mystrdup m1 arg
  (r.1, { opt with model := r.2 })

/-- Embeds the -t, --test handler (learn.c:97-98): holdout := atoi(arg)-1. -/
def onTest (m : Mem) (opt : LearnOption) (arg : String) : Mem × LearnOption :=
  (m, { opt with holdout := atoi arg - 1 })

/-- Embeds the -h, --help handler (learn.c:100-101). -/
def onHelp (m : Mem) (opt : LearnOption) : Mem × LearnOption :=
  (m, { opt with help := true })

/-- Embeds the -a, --algorithm handler (learn.c:103-105): free the old
algorithm string, then store a duplicate of the argument. -/
def onAlgorithm (m : Mem) (opt : LearnOption) (arg : String) : Mem × LearnOption :=
  let m1 := memFree m opt.algorithm.id
  let r := mystrdup m1 arg
  (r.1, { opt with algorithm := r.2 })

/-- Embeds the -f, --feature handler (learn.c:107-109).  The C code frees
opt->type but then assigns the duplicated argument to opt->model, leaving
opt->type dangling and leaking the previous model string. -/
def onFeature (m : Mem) (opt : LearnOption) (arg : String) : Mem × LearnOption :=
  let m1 := memFree m opt.type.id
  let r := mystrdup m1 arg
  (r.1, { opt with model := r.2 })

/-- Embeds the -p, --param handler (learn.c:111-114): append a duplicate of
the argument to the raw-parameter array. -/
def onParam (m : Mem) (opt : LearnOption) (arg : String) : Mem × LearnOption :=
  let r := mystrdup m arg
  (r.1, { opt with params := opt.params ++ [r.2] })

/-- Embeds the split at learn.c:198-202: strchr(name, '=') locates the
first '=' in the raw parameter; it is overwritten with NUL, so the name
becomes the prefix before it and the value the suffix after it.  When no
'=' occurs the value pointer stays NULL. -/
def splitFirstEq : List Char → List Char × Option (List Char)
  | [] => ([], none)
  | c :: cs =>
    if c = '=' then ([], some cs)
    else
      let r := splitFirstEq cs
      (c :: r.1, r.2)

/-- Follows the spec's words (for comparison with splitFirstEq): the name
is the longest prefix not containing '='. -/
def specFirstEqName (s : List Char) : List Char :=
  s.takeWhile (fun c => c != '=')

/-- Follows the spec's words (for comparison with splitFirstEq): the value
is absent when no '=' occurs, and otherwise is everything after the first
'=' (possibly the empty string). -/
def specFirstEqVal (s : List Char) : Option (List Char) :=
  if ('=' ∈ s) then some ((s.dropWhile (fun c => c != '=')).tail) else none

/-- Strip a literal list of characters from the front of another list,
returning the remainder when it matches. -/
def listChop : List Char → List Char → Option (List Char)
  | [], rest => some rest
  | _ :: _, [] => none
  | p :: ps, c :: cs => if p = c then listChop ps cs else none

/-- Return the value part of a long option of the form pre followed by a
value, for example of "--model=PATH" with pre "--model=". -/
def longArg (pre a : String) : Option String :=
  (listChop pre.toList a.toList).map (fun l => String.mk l)

/-- The five argument-taking options of the learn command. -/
inductive OptKind
  | model
  | test
  | algo
  | feature
  | param
deriving DecidableEq, Repr

/-- Classification of one argv entry by the option driver. -/
inductive Tok
  | help
  | needsArg (k : OptKind)
  | withArg (k : OptKind) (v : String)
  | positional
  | unknown
deriving DecidableEq, Repr

/-- Modelled from the spec: the generic option driver lives in option.h,
which is not part of this slice; only the per-option handlers of
parse_learn_options are.  Per the spec (section 4.1 and 6) the driver
recognizes the short options -m -t -a -f -p (each consuming the following
argv entry as its argument), the long forms --model= --test= --algorithm=
--feature= --param= carrying the value after '=', and -h or --help; it
stops at the first non-option argument (a lone "-" is a non-option), and
an unrecognized option is a parse error. -/
def classify (a : String) : Tok :=
  if a = "-h" ∨ a = "--help" then Tok.help
  else if a = "-m" then Tok.needsArg OptKind.model
  else if a = "-t" then Tok.needsArg OptKind.test
  else if a = "-a" then Tok.needsArg OptKind.algo
  else if a = "-f" then Tok.needsArg OptKind.feature
  else if a = "-p" then Tok.needsArg OptKind.param
  else
    match longArg ("--model=") a with
    | some v => Tok.withArg OptKind.model v
    | none =>
    match longArg ("--test=") a with
    | some v => Tok.withArg OptKind.test v
    | none =>
    match longArg ("--algorithm=") a with
    | some v => Tok.withArg OptKind.algo v
    | none =>
    match longArg ("--feature=") a with
    | some v => Tok.withArg OptKind.feature v
    | none =>
    match longArg ("--param=") a with
    | some v => Tok.withArg OptKind.param v
    | none =>
      if a = "-" then Tok.positional
      else
        match a.toList with
        | '-' :: _ => Tok.unknown
        | _ => Tok.positional

/-- Dispatch an argument-taking option to its handler from
parse_learn_options (learn.c:91-116). -/
def applyOpt (k : OptKind) (m : Mem) (opt : LearnOption) (v : String) :
    Mem × LearnOption :=
  match k with
  | OptKind.model => onModel m opt v
  | OptKind.test => onTest m opt v
  | OptKind.algo => onAlgorithm m opt v
  | OptKind.feature => onFeature m opt v
  | OptKind.param => onParam m opt v

/-- Modelled from the spec: the option driver loop.  On success it returns
the memory state, the populated option set and the index of the first
positional argument; on failure (unknown option, or an argument-taking
option at the end of the list) it returns the partially mutated state,
which main_learn still tears down. -/
def parseLoop : List String → Nat → Mem → LearnOption →
    Except (Mem × LearnOption) (Mem × LearnOption × Nat)
  | [], used, m, opt => Except.ok (m, opt, used)
  | a :: rest, used, m, opt =>
    match classify a with
    | Tok.help =>
      let r := onHelp m opt
      parseLoop rest (used + 1) r.1 r.2
    | Tok.withArg k v =>
      let r := applyOpt k m opt v
      parseLoop rest (used + 1) r.1 r.2
    | Tok.needsArg k =>
      match rest with
      | [] => Except.error (m, opt)
      | v :: rs =>
        let r := applyOpt k m opt v
        parseLoop rs (used + 2) r.1 r.2
    | Tok.positional => Except.ok (m, opt, used)
    | Tok.unknown => Except.error (m, opt)

/-- Embeds learn_option_init followed by option_parse (learn.c:154-158)
on the argv entries after the command word. -/
def option_parse (args : List String) :
    Except (Mem × LearnOption) (Mem × LearnOption × Nat) :=
  parseLoop args 0 learn_option_init.1 learn_option_init.2

/-- Oracle environment for the external collaborators of main_learn: the
two dictionary creations and the trainer creation (success flags), the
trainer's parameter store (the return code its set operation would give,
which learn.c discards), fopen success per file name, and the data
reader's per-stream result.  readCount and readErr together model the
reader contract of the spec, read(stream, ...) yielding (count, error);
the error component is modelled separately because the call site at
learn.c:226 discards the reader's outcome entirely. -/
structure Env where
  createDict1 : Bool
  createDict2 : Bool
  createTrainer : Bool
  paramSet : List Char → Option (List Char) → Int
  openOk : String → Bool
  readCount : Src → Nat
  readErr : Src → Bool
  trainResult : Int

/-- The stream a positional argument denotes (learn.c:218): stdin for "-",
otherwise the named file. -/
def srcOf (f : String) : Src :=
  if f = "-" then Src.stdin else Src.file f

/-- Result of the ingestion loop: the (stream, group id) calls made to
read_data in order, the accumulated instance count, and the first file
that failed to open, if any. -/
structure IngestResult where
  calls : List (Src × Nat)
  count : Nat
  failed : Option String
deriving DecidableEq, Repr

/-- Embeds the data-reading loop (learn.c:217-228): each positional
argument in order is opened (stdin for "-"); on open failure the loop is
abandoned with that file name; otherwise read_data is invoked with the
0-based position as the group id.  The reader's error outcome is not
inspected by the C code, so ingestLoop does not consult Env.readErr. -/
def ingestLoop (env : Env) : List String → Nat → IngestResult
  | [], _ => { calls := [], count := 0, failed := none }
  | f :: fs, g =>
    if f = "-" then
      let r := ingestLoop env fs (g + 1)
      { calls := (Src.stdin, g) :: r.calls,
        count := env.readCount Src.stdin + r.count, failed := r.failed }
    else if env.openOk f = true then
      let r := ingestLoop env fs (g + 1)
      { calls := (Src.file f, g) :: r.calls,
        count := env.readCount (Src.file f) + r.count, failed := r.failed }
    else { calls := [], count := 0, failed := some f }

/-- The three handles of main_learn that SAFE_RELEASE acts on
(learn.c:150-151, 262-265). -/
inductive Res
  | trainer
  | labels
  | attrs
deriving DecidableEq, Repr

/-- Error message printed on dictionary-creation failure (learn.c:173). -/
def errDict : String := "ERROR: Failed to create a dictionary instance."

/-- Error message printed on trainer-creation failure (learn.c:187). -/
def errTrainer : String := "ERROR: Failed to create a trainer instance."

/-- Error message printed on open failure (learn.c:220), with the file. -/
def errOpen (f : String) : String :=
  "ERROR: Failed to open the data set: " ++ f

/-- The fixed trainer kind passed to crf_create_instance (learn.c:185). -/
def trainerKindStr : String := "train/crf1d/lbfgs"

/-- The dictionary kind passed to crf_create_instance (learn.c:171, 177). -/
def dictKind : String := "dictionary"

/-- State of main_learn when control reaches the force_exit label: the
return code, the three resource handles (true when the creation call
succeeded, mirroring a non-NULL pointer), and the observable events of
the run so far. -/
structure MidState where
  ret : Int
  usagePrinted : Bool
  attrs : Bool
  labels : Bool
  trainer : Bool
  trainerKind : Option String
  createCalls : List String
  setCalls : List (List Char × Option (List Char))
  ingests : List (Src × Nat)
  numInstances : Nat
  trainInvoked : Bool
  errors : List String
  mem : Mem
deriving DecidableEq, Repr

/-- MidState right after initialization (learn.c:153-155): no resources,
no events, the given allocator state. -/
def initMid (m : Mem) : MidState :=
  { ret := 0, usagePrinted := false, attrs := false, labels := false,
    trainer := false, trainerKind := none, createCalls := [], setCalls := [],
    ingests := [], numInstances := 0, trainInvoked := false, errors := [],
    mem := m }

/-- Embeds main_learn after option parsing (learn.c:164-260): the help
short-circuit, creation of the attribute dictionary, the label dictionary
and the trainer (in that order, each failure jumping to force_exit with
ret 1), the parameter loop (whose set results the C code discards), the
ingestion loop (open failure jumping to force_exit with ret 1), and the
train call (whose return value becomes ret). -/
def afterParse (env : Env) (m : Mem) (opt : LearnOption)
    (files : List String) : MidState :=
  if opt.help = true then
    { initMid m with
        ret := 0
        usagePrinted := true }
  else if env.createDict1 = false then
    { initMid m with
        ret := 1
        createCalls := [dictKind]
        errors := [errDict] }
  else if env.createDict2 = false then
    { initMid m with
        ret := 1
        attrs := true
        createCalls := [dictKind, dictKind]
        errors := [errDict] }
  else if env.createTrainer = false then
    { initMid m with
        ret := 1
        attrs := true
        labels := true
        createCalls := [dictKind, dictKind, trainerKindStr]
        trainerKind := some trainerKindStr
        errors := [errTrainer] }
  else
    let sc := opt.params.map (fun p => splitFirstEq p.val.toList)
    let ing := ingestLoop env files 0
    match ing.failed with
    | some f =>
      { initMid m with
          ret := 1
          attrs := true
          labels := true
          trainer := true
          createCalls := [dictKind, dictKind, trainerKindStr]
          trainerKind := some trainerKindStr
          setCalls := sc
          ingests := ing.calls
          numInstances := ing.count
          errors := [errOpen f] }
    | none =>
      { initMid m with
          ret := env.trainResult
          attrs := true
          labels := true
          trainer := true
          createCalls := [dictKind, dictKind, trainerKindStr]
          trainerKind := some trainerKindStr
          setCalls := sc
          ingests := ing.calls
          numInstances := ing.count
          trainInvoked := true }

/-- Embeds main_learn up to the force_exit label: option parsing
(a negative result jumping to force_exit with ret 1, learn.c:158-162),
then afterParse on the positional arguments.  The option set is returned
alongside so that the cleanup can tear it down. -/
def mainBody (env : Env) (args : List String) : MidState × LearnOption :=
  match option_parse args with
  | Except.error e => ({ initMid e.1 with ret := 1 }, e.2)
  | Except.ok (m, opt, used) => (afterParse env m opt (args.drop used), opt)

/-- Embeds SAFE_RELEASE (learn.c:44): release only when the handle is
non-NULL, then NULL it, so releasing a never-created or already-released
handle is a no-op. -/
def SAFE_RELEASE (h : Bool) (r : Res) (log : List Res) : Bool × List Res :=
  if h then (false, log ++ [r]) else (h, log)

/-- Observable outcome of a whole main_learn run. -/
structure RunResult where
  ret : Int
  usagePrinted : Bool
  attrsCreated : Bool
  labelsCreated : Bool
  trainerCreated : Bool
  trainerKind : Option String
  createCalls : List String
  setCalls : List (List Char × Option (List Char))
  ingests : List (Src × Nat)
  numInstances : Nat
  trainInvoked : Bool
  errors : List String
  releases : List Res
  finalMem : Mem
  teardownFrees : List Nat
deriving DecidableEq, Repr

/-- Embeds the force_exit block (learn.c:262-270): SAFE_RELEASE on the
trainer, the label dictionary and the attribute dictionary in that order,
then crf_data_finish (corpus buffers, not tracked as allocations) and
learn_option_finish on the option set. -/
def cleanup (s : MidState) (opt : LearnOption) : RunResult :=
  let p1 := SAFE_RELEASE s.trainer Res.trainer []
  let p2 := SAFE_RELEASE s.labels Res.labels p1.2
  let p3 := SAFE_RELEASE s.attrs Res.attrs p2.2
  { ret := s.ret, usagePrinted := s.usagePrinted,
    attrsCreated := s.attrs, labelsCreated := s.labels,
    trainerCreated := s.trainer, trainerKind := s.trainerKind,
    createCalls := s.createCalls, setCalls := s.setCalls,
    ingests := s.ingests, numInstances := s.numInstances,
    trainInvoked := s.trainInvoked, errors := s.errors,
    releases := p3.2, finalMem := learn_option_finish s.mem opt,
    teardownFrees := finishFreeList opt }

/-- Embeds main_learn (learn.c:140-271): run the body, then the one
unconditional cleanup block at force_exit, and return ret. -/
def mainLearn (env : Env) (args : List String) : RunResult :=
  cleanup (mainBody env args).1 (mainBody env args).2

/-- The release events the force_exit block emits for a given trio of
handle states: trainer first, then labels, then attrs, each only when the
handle is live. -/
def releaseListOf (t l a : Bool) : List Res :=
  (if t then [Res.trainer] else []) ++ (if l then [Res.labels] else [])
    ++ (if a then [Res.attrs] else [])

/-- Whether a given resource was created during a run. -/
def createdOf (r : RunResult) : Res → Bool
  | Res.trainer => r.trainerCreated
  | Res.labels => r.labelsCreated
  | Res.attrs => r.attrsCreated

theorem splitFirstEq_spec (s : List Char) :
    splitFirstEq s = (specFirstEqName s, specFirstEqVal s) := by
  induction s with
  | nil => simp [splitFirstEq, specFirstEqName, specFirstEqVal]
  | cons c cs ih =>
    by_cases h : c = '='
    · subst h
      simp [splitFirstEq, specFirstEqName, specFirstEqVal]
    · simp only [splitFirstEq, if_neg h, specFirstEqName, specFirstEqVal,
        List.takeWhile_cons, List.dropWhile_cons, List.mem_cons] at *
      have hb : (c != '=') = true := by simp [h]
      simp only [hb, if_true, ih]
      have hiff : ('=' = c ∨ '=' ∈ cs) ↔ ('=' ∈ cs) := by
        constructor
        · intro hc
          rcases hc with hc | hc
          · exact absurd hc.symm h
          · exact hc
        · intro hc
          exact Or.inr hc
      simp [hiff]

theorem ingestLoop_congr (e1 e2 : Env) (ho : e1.openOk = e2.openOk)
    (hr : e1.readCount = e2.readCount) (fs : List String) (g : Nat) :
    ingestLoop e1 fs g = ingestLoop e2 fs g := by
  induction fs generalizing g with
  | nil => rfl
  | cons f fs ih => simp [ingestLoop, ho, hr, ih]

theorem ingestLoop_ok (env : Env) (files : List String) (g : Nat)
    (h : ∀ f ∈ files, f = "-" ∨ env.openOk f = true) :
    (ingestLoop env files g).failed = none
    ∧ (ingestLoop env files g).calls.map Prod.fst = files.map srcOf
    ∧ (ingestLoop env files g).calls.map Prod.snd
        = List.range' g files.length := by
  induction files generalizing g with
  | nil => simp [ingestLoop]
  | cons f fs ih =>
    have htail : ∀ x ∈ fs, x = "-" ∨ env.openOk x = true := by
      intro x hx
      exact h x (List.mem_cons_of_mem f hx)
    have ihg := ih (g + 1) htail
    by_cases hd : f = "-"
    · subst hd
      simp [ingestLoop, srcOf, ihg.1, ihg.2.1, ihg.2.2, List.range'_succ]
    · have hok : env.openOk f = true := by
        rcases h f (List.mem_cons_self f fs) with hc | hc
        · exact absurd hc hd
        · exact hc
      simp [ingestLoop, hd, hok, srcOf, ihg.1, ihg.2.1, ihg.2.2,
        List.range'_succ]

theorem ingestLoop_fail (env : Env) (pre : List String) (f : String)
    (post : List String) (g : Nat)
    (hpre : ∀ x ∈ pre, x = "-" ∨ env.openOk x = true)
    (hf : ¬(f = "-")) (ho : env.openOk f = false) :
    (ingestLoop env (pre ++ f :: post) g).failed = some f := by
  induction pre generalizing g with
  | nil => simp [ingestLoop, hf, ho]
  | cons x xs ih =>
    have htail : ∀ y ∈ xs, y = "-" ∨ env.openOk y = true := by
      intro y hy
      exact hpre y (List.mem_cons_of_mem x hy)
    by_cases hx : x = "-"
    · simp [ingestLoop, hx, ih (g + 1) htail]
    · have hok : env.openOk x = true := by
        rcases hpre x (List.mem_cons_self x xs) with hc | hc
        · exact absurd hc hx
        · exact hc
      simp [ingestLoop, hx, hok, ih (g + 1) htail]

theorem foldl_memFree_freed (ps : List Alloc) (m : Mem) :
    (ps.foldl (fun acc a => memFree acc a.id) m).freed
      = m.freed ++ ps.map (fun p => p.id) := by
  induction ps generalizing m with
  | nil => simp
  | cons p ps ih =>
    rw [List.foldl_cons, ih]
    simp [memFree]

theorem learn_option_finish_freed (m : Mem) (opt : LearnOption) :
    (learn_option_finish m opt).freed = m.freed ++ finishFreeList opt := by
  rw [learn_option_finish, foldl_memFree_freed]
  simp [memFree, finishFreeList]

theorem cleanup_releases (s : MidState) (opt : LearnOption) :
    (cleanup s opt).releases = releaseListOf s.trainer s.labels s.attrs := by
  cases ht : s.trainer <;> cases hl : s.labels <;> cases ha : s.attrs <;>
    simp [cleanup, SAFE_RELEASE, releaseListOf, ht, hl, ha]

theorem releaseListOf_nodup (t l a : Bool) : (releaseListOf t l a).Nodup := by
  cases t <;> cases l <;> cases a <;> decide

theorem releaseListOf_count (t l a : Bool) (x : Res) :
    (releaseListOf t l a).count x
      = (if (match x with
            | Res.trainer => t
            | Res.labels => l
            | Res.attrs => a) = true then 1 else 0) := by
  cases t <;> cases l <;> cases a <;> cases x <;> decide

/-- Allocation discipline of the option set: every owned id is below the
allocator's next fresh id, the three string fields and the stored raw
parameters all hold pairwise distinct allocations, and the parameter ids
are mutually distinct. -/
def OptInv (m : Mem) (opt : LearnOption) : Prop :=
  opt.model.id < m.next ∧ opt.algorithm.id < m.next ∧ opt.type.id < m.next
  ∧ (∀ p ∈ opt.params, p.id < m.next)
  ∧ opt.model.id ≠ opt.algorithm.id ∧ opt.model.id ≠ opt.type.id
  ∧ opt.algorithm.id ≠ opt.type.id
  ∧ (∀ p ∈ opt.params,
      p.id ≠ opt.model.id ∧ p.id ≠ opt.algorithm.id ∧ p.id ≠ opt.type.id)
  ∧ (opt.params.map (fun p => p.id)).Nodup

theorem optInv_init : OptInv learn_option_init.1 learn_option_init.2 := by
  refine ⟨?_, ?_, ?_, ?_, ?_, ?_, ?_, ?_, ?_⟩ <;>
    simp [learn_option_init, mystrdup, OptInv]

theorem optInv_onHelp (m : Mem) (opt : LearnOption) (h : OptInv m opt) :
    OptInv (onHelp m opt).1 (onHelp m opt).2 := by
  exact h

theorem optInv_applyOpt (k : OptKind) (m : Mem) (opt : LearnOption)
    (v : String) (h : OptInv m opt) :
    OptInv (applyOpt k m opt v).1 (applyOpt k m opt v).2 := by
  obtain ⟨hm, ha, ht, hps, hma, hmt, hat, hpd, hnd⟩ := h
  cases k
  case model =>
    refine ⟨?_, ?_, ?_, ?_, ?_, ?_, ?_, ?_, ?_⟩ <;>
      simp [applyOpt, onModel, mystrdup, memFree]
    · omega
    · omega
    · intro p hp
      exact Nat.lt_succ_of_lt (hps p hp)
    · omega
    · omega
    · exact hat
    · intro p hp
      have h1 := hps p hp
      have h2 := hpd p hp
      exact ⟨by omega, h2.2.1, h2.2.2⟩
    · exact hnd
  case test =>
    exact ⟨hm, ha, ht, hps, hma, hmt, hat, hpd, hnd⟩
  case algo =>
    refine ⟨?_, ?_, ?_, ?_, ?_, ?_, ?_, ?_, ?_⟩ <;>
      simp [applyOpt, onAlgorithm, mystrdup, memFree]
    · omega
    · omega
    · intro p hp
      exact Nat.lt_succ_of_lt (hps p hp)
    · omega
    · exact hmt
    · omega
    · intro p hp
      have h1 := hps p hp
      have h2 := hpd p hp
      exact ⟨h2.1, by omega, h2.2.2⟩
    · exact hnd
  case feature =>
    refine ⟨?_, ?_, ?_, ?_, ?_, ?_, ?_, ?_, ?_⟩ <;>
      simp [applyOpt, onFeature, mystrdup, memFree]
    · omega
    · omega
    · intro p hp
      exact Nat.lt_succ_of_lt (hps p hp)
    · omega
    · omega
    · exact hat
    · intro p hp
      have h1 := hps p hp
      have h2 := hpd p hp
      exact ⟨by omega, h2.2.1, h2.2.2⟩
    · exact hnd
  case param =>
    refine ⟨?_, ?_, ?_, ?_, ?_, ?_, ?_, ?_, ?_⟩ <;>
      simp [applyOpt, onParam, mystrdup, memFree]
    · omega
    · omega
    · omega
    · intro p hp
      rcases hp with hp | rfl
      · exact Nat.lt_succ_of_lt (hps p hp)
      · exact Nat.lt_succ_self _
    · exact hma
    · exact hmt
    · exact hat
    · intro p hp
      rcases hp with hp | rfl
      · exact hpd p hp
      · exact ⟨by simp; omega, by simp; omega, by simp; omega⟩
    · refine List.Nodup.append hnd (List.nodup_singleton _) ?_
      intro x hx hx'
      simp at hx'
      rcases List.mem_map.mp hx with ⟨p, hp, rfl⟩
      have := hps p hp
      omega

theorem optInv_parseLoop (n : Nat) :
    ∀ (args : List String), args.length ≤ n →
    ∀ (used : Nat) (m : Mem) (opt : LearnOption) (m' : Mem)
      (opt' : LearnOption) (used' : Nat),
    OptInv m opt → parseLoop args used m opt = Except.ok (m', opt', used') →
    OptInv m' opt' := by
  induction n with
  | zero =>
    intro args hlen used m opt m' opt' used' hinv hrun
    cases args with
    | nil =>
      simp [parseLoop] at hrun
      obtain ⟨rfl, rfl, rfl⟩ := hrun
      exact hinv
    | cons a rest => simp at hlen
  | succ n ih =>
    intro args hlen used m opt m' opt' used' hinv hrun
    cases args with
    | nil =>
      simp [parseLoop] at hrun
      obtain ⟨rfl, rfl, rfl⟩ := hrun
      exact hinv
    | cons a rest =>
      rw [parseLoop] at hrun
      cases hc : classify a with
      | help =>
        rw [hc] at hrun
        exact ih rest (by simp at hlen; omega) (used + 1) _ _ _ _ _
          (optInv_onHelp m opt hinv) hrun
      | withArg k v =>
        rw [hc] at hrun
        exact ih rest (by simp at hlen; omega) (used + 1) _ _ _ _ _
          (optInv_applyOpt k m opt v hinv) hrun
      | needsArg k =>
        rw [hc] at hrun
        cases rest with
        | nil => simp at hrun
        | cons v rs =>
          exact ih rs (by simp at hlen; omega) (used + 2) _ _ _ _ _
            (optInv_applyOpt k m opt v hinv) hrun
      | positional =>
        rw [hc] at hrun
        simp at hrun
        obtain ⟨rfl, rfl, rfl⟩ := hrun
        exact hinv
      | unknown =>
        rw [hc] at hrun
        simp at hrun

theorem optInv_option_parse (args : List String) (m : Mem)
    (opt : LearnOption) (used : Nat)
    (h : option_parse args = Except.ok (m, opt, used)) : OptInv m opt := by
  exact optInv_parseLoop args.length args (Nat.le_refl _) 0
    learn_option_init.1 learn_option_init.2 m opt used optInv_init h

theorem afterParse_env_congr (e1 e2 : Env)
    (h1 : e1.createDict1 = e2.createDict1)
    (h2 : e1.createDict2 = e2.createDict2)
    (h3 : e1.createTrainer = e2.createTrainer)
    (ho : e1.openOk = e2.openOk) (hr : e1.readCount = e2.readCount)
    (htr : e1.trainResult = e2.trainResult)
    (m : Mem) (opt : LearnOption) (files : List String) :
    afterParse e1 m opt files = afterParse e2 m opt files := by
  rw [afterParse, afterParse, h1, h2, h3, htr,
    ingestLoop_congr e1 e2 ho hr files 0]

theorem mainLearn_env_congr (e1 e2 : Env)
    (h1 : e1.createDict1 = e2.createDict1)
    (h2 : e1.createDict2 = e2.createDict2)
    (h3 : e1.createTrainer = e2.createTrainer)
    (ho : e1.openOk = e2.openOk) (hr : e1.readCount = e2.readCount)
    (htr : e1.trainResult = e2.trainResult) (args : List String) :
    mainLearn e1 args = mainLearn e2 args := by
  unfold mainLearn mainBody
  cases hop : option_parse args with
  | error e => rfl
  | ok v =>
    obtain ⟨m, opt, used⟩ := v
    simp only []
    rw [afterParse_env_congr e1 e2 h1 h2 h3 ho hr htr m opt (args.drop used)]

/-- An all-success oracle environment used to instantiate universally
quantified theorems at concrete inputs. -/
def env0 : Env :=
  { createDict1 := true, createDict2 := true, createTrainer := true,
    paramSet := fun _ _ => 0, openOk := fun _ => true,
    readCount := fun _ => 0, readErr := fun _ => false, trainResult := 0 }

/-- The allocator state right after learn_option_init. -/
def mem0 : Mem := { next := 3, freed := [] }

/-- The option set right after learn_option_init. -/
def opt0 : LearnOption :=
  { model := ⟨0, "crfsuite.model"⟩, algorithm := ⟨1, "lbfgs"⟩,
    type := ⟨2, "dyad"⟩, holdout := -1, help := false, params := [] }

/-- C1: on every exit path of main_learn (parse failure, help, each
creation failure, file-open failure, training failure, success), control
reaches the single unconditional force_exit cleanup, which releases the
trainer, then the label dictionary, then the attribute dictionary;
SAFE_RELEASE is idempotent (a never-created or already-released handle is
a no-op), so no resource is released more than once and exactly the
resources created before the failing step are released, once each. -/
theorem c1_unconditional_cleanup (env : Env) (args : List String) :
    mainLearn env args = cleanup (mainBody env args).1 (mainBody env args).2
    ∧ (mainLearn env args).releases
        = releaseListOf (mainLearn env args).trainerCreated
            (mainLearn env args).labelsCreated
            (mainLearn env args).attrsCreated
    ∧ (mainLearn env args).releases.Nodup
    ∧ (∀ x : Res, (mainLearn env args).releases.count x
        = if createdOf (mainLearn env args) x = true then 1 else 0)
    ∧ (∀ (r : Res) (ln : List Res), SAFE_RELEASE false r ln = (false, ln))
    ∧ (∀ (b : Bool) (r : Res) (ln : List Res),
        SAFE_RELEASE (SAFE_RELEASE b r ln).1 r (SAFE_RELEASE b r ln).2
          = (false, (SAFE_RELEASE b r ln).2)) := by
  refine ⟨rfl, ?_, ?_, ?_, ?_, ?_⟩
  · exact cleanup_releases (mainBody env args).1 (mainBody env args).2
  · rw [mainLearn, cleanup_releases]
    exact releaseListOf_nodup _ _ _
  · intro x
    rw [mainLearn, cleanup_releases, releaseListOf_count]
    cases x <;> rfl
  · intro r ln
    rfl
  · intro b r ln
    cases b <;> simp [SAFE_RELEASE]

/-- The oracle environment of the C2 counterexample: every collaborator
succeeds except the trainer's parameter store, whose set operation
rejects every parameter with return code 1. -/
def envParamReject : Env :=
  { env0 with paramSet := fun _ _ => 1 }

/-- C2 counterexample: with a parameter store that rejects the parameter
"bogus", main_learn still performs the set call, prints no error, invokes
training and exits 0 — the claim that a rejected parameter aborts the run
as a reported configuration error is false on the code, which discards
the return value of params->set (learn.c:204). -/
theorem c2_counterexample :
    envParamReject.paramSet (("bogus").toList) none = 1
    ∧ (mainLearn envParamReject ["-p", "bogus"]).setCalls
        = [((("bogus").toList), none)]
    ∧ (mainLearn envParamReject ["-p", "bogus"]).trainInvoked = true
    ∧ (mainLearn envParamReject ["-p", "bogus"]).ret = 0
    ∧ (mainLearn envParamReject ["-p", "bogus"]).errors = [] := by
  exact ⟨rfl, by decide, by decide, by decide, by decide⟩

/-- C2 amended: main_learn discards the return value of the parameter
store's set operation (learn.c:204), so a rejected parameter name has no
observable effect at all: the whole run is independent of what the set
operation returns — no abort, no diagnostic, and training proceeds
exactly as if the parameter had been accepted. -/
theorem c2_param_rejection_ignored (env : Env)
    (f : List Char → Option (List Char) → Int) (args : List String) :
    mainLearn { env with paramSet := f } args = mainLearn env args := by
  exact mainLearn_env_congr { env with paramSet := f } env
    rfl rfl rfl rfl rfl rfl args

/-- The oracle environment of the C3 counterexample: file "a" opens fine
but the data reader signals an error on it. -/
def envReadErr : Env :=
  { env0 with readErr := fun _ => true }

/-- C3 counterexample: the reader reports a read error on file "a"
(modelled from the spec contract read(...) -> (count, error)), yet the
run does not abort: learn.c:226 discards read_data's outcome, so training
is still invoked and the run exits 0.  This refutes the fails-to-read
half of the claim. -/
theorem c3_counterexample :
    envReadErr.readErr (Src.file ("a")) = true
    ∧ envReadErr.openOk ("a") = true
    ∧ (mainLearn envReadErr ["a"]).ingests = [(Src.file ("a"), 0)]
    ∧ (mainLearn envReadErr ["a"]).trainInvoked = true
    ∧ (mainLearn envReadErr ["a"]).ret = 0
    ∧ (mainLearn envReadErr ["a"]).errors = [] := by
  exact ⟨rfl, rfl, by decide, by decide, by decide, by decide⟩

/-- C3 amended: if any named input file fails to OPEN, the run aborts
before training begins with ret 1 and a diagnostic naming the failing
file, with no partial-success mode; read errors, however, are not
observed by the orchestrator — the reader's outcome is discarded at the
call site, so the whole run is independent of the reader's error
component. -/
theorem c3_open_failure_aborts (env : Env) (args : List String) (m : Mem)
    (opt : LearnOption) (used : Nat) (pre : List String) (f : String)
    (post : List String) (g : Src → Bool)
    (hp : option_parse args = Except.ok (m, opt, used))
    (hh : opt.help = false)
    (h1 : env.createDict1 = true) (h2 : env.createDict2 = true)
    (h3 : env.createTrainer = true)
    (hsplit : args.drop used = pre ++ f :: post)
    (hpre : ∀ x ∈ pre, x = "-" ∨ env.openOk x = true)
    (hf : ¬(f = "-")) (ho : env.openOk f = false) :
    (mainLearn env args).ret = 1
    ∧ (mainLearn env args).trainInvoked = false
    ∧ errOpen f ∈ (mainLearn env args).errors
    ∧ mainLearn { env with readErr := g } args = mainLearn env args := by
  have hfail : (ingestLoop env (args.drop used) 0).failed = some f := by
    rw [hsplit]
    exact ingestLoop_fail env pre f post 0 hpre hf ho
  have hmain : mainLearn env args
      = cleanup (afterParse env m opt (args.drop used)) opt := by
    rw [mainLearn, mainBody, hp]
  refine ⟨?_, ?_, ?_, ?_⟩
  · rw [hmain, afterParse]
    simp [hh, h1, h2, h3, hfail, cleanup, initMid]
  · rw [hmain, afterParse]
    simp [hh, h1, h2, h3, hfail, cleanup, initMid]
  · rw [hmain, afterParse]
    simp [hh, h1, h2, h3, hfail, cleanup, initMid]
  · exact mainLearn_env_congr { env with readErr := g } env
      rfl rfl rfl rfl rfl rfl args

/-- The oracle environment of the C3 witness: every file opens except
"bad". -/
def envOpenFail : Env :=
  { env0 with openOk := fun s => !(s == "bad") }

theorem c3_open_failure_aborts_witness :
    (mainLearn envOpenFail ["good", "bad"]).ret = 1
    ∧ (mainLearn envOpenFail ["good", "bad"]).trainInvoked = false
    ∧ errOpen ("bad") ∈ (mainLearn envOpenFail ["good", "bad"]).errors
    ∧ mainLearn { envOpenFail with readErr := fun _ => true } ["good", "bad"]
        = mainLearn envOpenFail ["good", "bad"] := by
  exact c3_open_failure_aborts envOpenFail ["good", "bad"] mem0 opt0 0
    ["good"] ("bad") [] (fun _ => true) rfl rfl rfl rfl rfl rfl
    (by decide) (by decide) (by decide)

/-- C5: learn.c:218 maps the positional argument "-" to stdin, matching
the claim; but when DATA is omitted entirely the ingestion loop
(learn.c:217) executes zero times, so nothing at all is read — the run
proceeds straight to training on an empty corpus.  The usage text
(learn.c:122) promises that an omitted DATA reads stdin, so the code
contradicts its own documentation on the omission half of the claim. -/
theorem c5_stdin_only_for_dash :
    (mainLearn env0 ["-"]).ingests = [(Src.stdin, 0)]
    ∧ (mainLearn env0 []).ingests = []
    ∧ (mainLearn env0 []).numInstances = 0
    ∧ (mainLearn env0 []).trainInvoked = true
    ∧ (mainLearn env0 []).ret = 0 := by
  exact ⟨by decide, by decide, by decide, by decide, by decide⟩

/-- C7: the -f (feature) handler (learn.c:107-109) frees the old
feature-type string and then overwrites the MODEL (output-path) field
with a copy of its argument, leaving the feature-type field unchanged
(and dangling); the parser routes both -f TYPE and --feature=TYPE to this
handler. -/
theorem c7_feature_overwrites_model (m : Mem) (opt : LearnOption)
    (arg : String) :
    (onFeature m opt arg).2.model = ⟨m.next, arg⟩
    ∧ (onFeature m opt arg).2.type = opt.type
    ∧ (onFeature m opt arg).2.algorithm = opt.algorithm
    ∧ (onFeature m opt arg).2.params = opt.params
    ∧ (onFeature m opt arg).1.freed = m.freed ++ [opt.type.id]
    ∧ (∀ (rest : List String) (used : Nat),
        parseLoop (("-f") :: arg :: rest) used m opt
          = parseLoop rest (used + 2) (onFeature m opt arg).1
              (onFeature m opt arg).2)
    ∧ (∀ (rest : List String) (used : Nat) (m2 : Mem) (opt2 : LearnOption),
        parseLoop (("--feature=crf1d") :: rest) used m2 opt2
          = parseLoop rest (used + 1) (onFeature m2 opt2 ("crf1d")).1
              (onFeature m2 opt2 ("crf1d")).2) := by
  refine ⟨rfl, rfl, rfl, rfl, rfl, ?_, ?_⟩
  · intro rest used
    have hc : classify ("-f") = Tok.needsArg OptKind.feature := by decide
    rw [parseLoop, hc]
    rfl
  · intro rest used m2 opt2
    have hc : classify ("--feature=crf1d")
        = Tok.withArg OptKind.feature ("crf1d") := by decide
    rw [parseLoop, hc]
    rfl

/-- C4: the parameter argument is split on the first '=' only, so
NAME=A=B yields name NAME and value A=B; a string without '=' keeps a
NULL (absent) value, which differs from the empty-string value produced
by NAME=; and the set calls the parameter loop (learn.c:193-206) issues
are exactly the splits of the stored raw parameters, in list order. -/
theorem c4_param_split (env : Env) (args : List String) (m : Mem)
    (opt : LearnOption) (used : Nat) (s : List Char)
    (hp : option_parse args = Except.ok (m, opt, used))
    (hh : opt.help = false)
    (h1 : env.createDict1 = true) (h2 : env.createDict2 = true)
    (h3 : env.createTrainer = true) :
    splitFirstEq s = (specFirstEqName s, specFirstEqVal s)
    ∧ splitFirstEq (("NAME=A=B").toList)
        = ((("NAME").toList), some (("A=B").toList))
    ∧ splitFirstEq (("NAME").toList) = ((("NAME").toList), none)
    ∧ splitFirstEq (("NAME=").toList) = ((("NAME").toList), some [])
    ∧ some ([] : List Char) ≠ (none : Option (List Char))
    ∧ (mainLearn env args).setCalls
        = opt.params.map (fun p => splitFirstEq p.val.toList) := by
  refine ⟨splitFirstEq_spec s, by decide, by decide, by decide,
    by decide, ?_⟩
  have hmain : mainLearn env args
      = cleanup (afterParse env m opt (args.drop used)) opt := by
    rw [mainLearn, mainBody, hp]
  rw [hmain, afterParse]
  rcases hfa : (ingestLoop env (args.drop used) 0).failed with _ | f <;>
    simp [hh, h1, h2, h3, hfa, cleanup, initMid]

/-- Parse state reached by option_parse on ["-p", "x=1", "-p", "y"]. -/
def memP : Mem := { next := 5, freed := [] }

/-- Option set reached by option_parse on ["-p", "x=1", "-p", "y"]. -/
def optP : LearnOption :=
  { model := ⟨0, "crfsuite.model"⟩, algorithm := ⟨1, "lbfgs"⟩,
    type := ⟨2, "dyad"⟩, holdout := -1, help := false,
    params := [⟨3, "x=1"⟩, ⟨4, "y"⟩] }

theorem c4_param_split_witness :
    option_parse ["-p", "x=1", "-p", "y"] = Except.ok (memP, optP, 4)
    ∧ (mainLearn env0 ["-p", "x=1", "-p", "y"]).setCalls
        = [((("x").toList), some (("1").toList)), ((("y").toList), none)] := by
  refine ⟨rfl, ?_⟩
  have h := c4_param_split env0 ["-p", "x=1", "-p", "y"] memP optP 4 []
    rfl rfl rfl rfl rfl
  rw [h.2.2.2.2.2]
  rfl

/-- C6 counterexample: after a run with no flags, the option teardown
frees only the model string (allocation 0); the algorithm string
(allocation 1) and the feature-type string (allocation 2) are never
freed, refuting the claim that all owned strings are freed at exit. -/
theorem c6_counterexample :
    option_parse [] = Except.ok (mem0, opt0, 0)
    ∧ (mainLearn env0 []).teardownFrees = [0]
    ∧ opt0.algorithm.id = 1 ∧ opt0.type.id = 2
    ∧ opt0.algorithm.id ∉ (mainLearn env0 []).teardownFrees
    ∧ opt0.type.id ∉ (mainLearn env0 []).teardownFrees
    ∧ (mainLearn env0 []).finalMem.freed = [0] := by
  exact ⟨rfl, by decide, rfl, rfl, by decide, by decide, by decide⟩

/-- C6 amended: on every exit path the option teardown
(learn_option_finish) frees exactly the output-path string and the
stored raw-parameter strings, once each (their allocations are pairwise
distinct); the algorithm-name and feature-type strings are never freed
by it — they leak. -/
theorem c6_option_teardown (env : Env) (args : List String) (m : Mem)
    (opt : LearnOption) (used : Nat)
    (hp : option_parse args = Except.ok (m, opt, used)) :
    (mainLearn env args).teardownFrees
        = opt.model.id :: opt.params.map (fun p => p.id)
    ∧ (mainLearn env args).teardownFrees.Nodup
    ∧ opt.algorithm.id ∉ (mainLearn env args).teardownFrees
    ∧ opt.type.id ∉ (mainLearn env args).teardownFrees
    ∧ (mainLearn env args).finalMem.freed
        = (mainBody env args).1.mem.freed
            ++ (mainLearn env args).teardownFrees := by
  obtain ⟨hm, ha, ht, hps, hma, hmt, hat, hpd, hnd⟩ :=
    optInv_option_parse args m opt used hp
  have hfix : (mainLearn env args).teardownFrees = finishFreeList opt := by
    rw [mainLearn, mainBody, hp]
    rfl
  refine ⟨?_, ?_, ?_, ?_, ?_⟩
  · rw [hfix, finishFreeList]
  · rw [hfix, finishFreeList]
    refine List.nodup_cons.mpr ⟨?_, hnd⟩
    intro hmem
    rcases List.mem_map.mp hmem with ⟨p, hp', he⟩
    exact (hpd p hp').1 he
  · rw [hfix, finishFreeList]
    intro hmem
    rcases List.mem_cons.mp hmem with he | hmem
    · exact hma he.symm
    · rcases List.mem_map.mp hmem with ⟨p, hp', he⟩
      exact (hpd p hp').2.1 he
  · rw [hfix, finishFreeList]
    intro hmem
    rcases List.mem_cons.mp hmem with he | hmem
    · exact hmt he.symm
    · rcases List.mem_map.mp hmem with ⟨p, hp', he⟩
      exact (hpd p hp').2.2 he
  · have hopt : (mainBody env args).2 = opt := by
      rw [mainBody, hp]
    rw [hfix, mainLearn]
    show (learn_option_finish (mainBody env args).1.mem
        (mainBody env args).2).freed = _
    rw [learn_option_finish_freed, hopt]

/-- Parse state reached by option_parse on ["-p", "x=1"]. -/
def memP1 : Mem := { next := 4, freed := [] }

/-- Option set reached by option_parse on ["-p", "x=1"]. -/
def optP1 : LearnOption :=
  { model := ⟨0, "crfsuite.model"⟩, algorithm := ⟨1, "lbfgs"⟩,
    type := ⟨2, "dyad"⟩, holdout := -1, help := false,
    params := [⟨3, "x=1"⟩] }

theorem c6_option_teardown_witness :
    (mainLearn env0 ["-p", "x=1"]).teardownFrees
        = optP1.model.id :: optP1.params.map (fun p => p.id)
    ∧ (mainLearn env0 ["-p", "x=1"]).teardownFrees.Nodup
    ∧ optP1.algorithm.id ∉ (mainLearn env0 ["-p", "x=1"]).teardownFrees
    ∧ optP1.type.id ∉ (mainLearn env0 ["-p", "x=1"]).teardownFrees
    ∧ (mainLearn env0 ["-p", "x=1"]).finalMem.freed
        = (mainBody env0 ["-p", "x=1"]).1.mem.freed
            ++ (mainLearn env0 ["-p", "x=1"]).teardownFrees :=
  c6_option_teardown env0 ["-p", "x=1"] memP1 optP1 2 rfl

/-- C8: ingestion is strictly sequential in listing order, and the group
id passed to read_data for each positional argument is its 0-based
position (learn.c:217-226), so the group ids used are exactly 0..N-1 in
listing order, independent of what the reader returns for each file. -/
theorem c8_sequential_group_ids (env : Env) (args : List String) (m : Mem)
    (opt : LearnOption) (used : Nat)
    (hp : option_parse args = Except.ok (m, opt, used))
    (hh : opt.help = false)
    (h1 : env.createDict1 = true) (h2 : env.createDict2 = true)
    (h3 : env.createTrainer = true)
    (hopen : ∀ f ∈ args.drop used, f = "-" ∨ env.openOk f = true) :
    (mainLearn env args).ingests.map Prod.fst = (args.drop used).map srcOf
    ∧ (mainLearn env args).ingests.map Prod.snd
        = List.range (args.drop used).length := by
  have hio := ingestLoop_ok env (args.drop used) 0 hopen
  have hmain : mainLearn env args
      = cleanup (afterParse env m opt (args.drop used)) opt := by
    rw [mainLearn, mainBody, hp]
  constructor <;>
    (rw [hmain, afterParse]
     simp [hh, h1, h2, h3, hio.1, cleanup, initMid, hio.2.1, hio.2.2,
       List.range_eq_range'])

theorem c8_sequential_group_ids_witness :
    (mainLearn env0 ["a", "b"]).ingests.map Prod.fst
        = ((["a", "b"] : List String).drop 0).map srcOf
    ∧ (mainLearn env0 ["a", "b"]).ingests.map Prod.snd
        = List.range ((["a", "b"] : List String).drop 0).length :=
  c8_sequential_group_ids env0 ["a", "b"] mem0 opt0 0 rfl rfl rfl rfl rfl
    (by decide)

/-- C9: when the parsed options request help, main_learn prints the usage
text and exits 0 before any dictionary or trainer creation call is made
(learn.c:164-168), and training is never invoked. -/
theorem c9_help_short_circuit (env : Env) (args : List String) (m : Mem)
    (opt : LearnOption) (used : Nat)
    (hp : option_parse args = Except.ok (m, opt, used))
    (hh : opt.help = true) :
    (mainLearn env args).ret = 0
    ∧ (mainLearn env args).usagePrinted = true
    ∧ (mainLearn env args).createCalls = []
    ∧ (mainLearn env args).attrsCreated = false
    ∧ (mainLearn env args).labelsCreated = false
    ∧ (mainLearn env args).trainerCreated = false
    ∧ (mainLearn env args).trainInvoked = false := by
  have hmain : mainLearn env args
      = cleanup (afterParse env m opt (args.drop used)) opt := by
    rw [mainLearn, mainBody, hp]
  refine ⟨?_, ?_, ?_, ?_, ?_, ?_, ?_⟩ <;>
    (rw [hmain, afterParse]
     simp [hh, cleanup, initMid, SAFE_RELEASE])

/-- Option set reached by option_parse on ["-h"]. -/
def optH : LearnOption :=
  { model := ⟨0, "crfsuite.model"⟩, algorithm := ⟨1, "lbfgs"⟩,
    type := ⟨2, "dyad"⟩, holdout := -1, help := true, params := [] }

theorem c9_help_short_circuit_witness :
    (mainLearn env0 ["-h"]).ret = 0
    ∧ (mainLearn env0 ["-h"]).usagePrinted = true
    ∧ (mainLearn env0 ["-h"]).createCalls = []
    ∧ (mainLearn env0 ["-h"]).attrsCreated = false
    ∧ (mainLearn env0 ["-h"]).labelsCreated = false
    ∧ (mainLearn env0 ["-h"]).trainerCreated = false
    ∧ (mainLearn env0 ["-h"]).trainInvoked = false :=
  c9_help_short_circuit env0 ["-h"] mem0 optH 1 rfl rfl

/-- C10: the trainer is created with the fixed kind string
"train/crf1d/lbfgs" (learn.c:185) — the only trainer kind a run can ever
mention — and the whole observable run is unchanged if the option set's
algorithm field is replaced by anything else: the -a value is never
consulted after parsing. -/
theorem c10_fixed_trainer_kind (env : Env) (args : List String) (m : Mem)
    (opt : LearnOption) (files : List String) (a : Alloc) :
    ((mainLearn env args).trainerKind = none
      ∨ (mainLearn env args).trainerKind = some trainerKindStr)
    ∧ cleanup (afterParse env m { opt with algorithm := a } files)
          { opt with algorithm := a }
        = cleanup (afterParse env m opt files) opt := by
  constructor
  · have hap : ∀ (e : Env) (mm : Mem) (oo : LearnOption) (fl : List String),
        (afterParse e mm oo fl).trainerKind = none
        ∨ (afterParse e mm oo fl).trainerKind = some trainerKindStr := by
      intro e mm oo fl
      by_cases hh : oo.help = true
      · rw [afterParse]
        simp [hh, initMid]
      · by_cases hc1 : e.createDict1 = false
        · rw [afterParse]
          simp [hh, hc1, initMid]
        · by_cases hc2 : e.createDict2 = false
          · rw [afterParse]
            simp [hh, hc1, hc2, initMid]
          · by_cases hc3 : e.createTrainer = false
            · rw [afterParse]
              simp [hh, hc1, hc2, hc3, initMid]
            · rcases hfa : (ingestLoop e fl 0).failed with _ | f <;>
                (rw [afterParse]
                 simp [hh, hc1, hc2, hc3, hfa, initMid])
    unfold mainLearn mainBody
    cases hop : option_parse args with
    | error e =>
      left
      rfl
    | ok v =>
      obtain ⟨mm, oo, usd⟩ := v
      exact hap env mm oo (args.drop usd)
  · cases opt
    rfl

end CrfLearn
